import Mathlib

/- Verification development for main.py of the Chatterous chat bot.

   Shallow embedding: the SQLite users table and the in-memory Python dicts
   (trivia sessions, trivia scores, cooldown timestamp maps) are modelled as
   association lists with explicit lookup / assignment / delete / update
   operations; the command handlers and event-handler fragments become pure
   Lean functions over that state, with the pseudo-random inputs
   (random.randint, random.choice) and the wall clock (time.time) passed in
   as explicit arguments.  Python ints are Int (Nat where the source only
   ever holds non-negative counters), and fallible paths are explicit
   result constructors. -/

/-- Association list lookup.  Models both a SQLite fetchone keyed by a
primary key and a Python dict read (dict.get). -/
def alookup {κ α : Type} [DecidableEq κ] : List (κ × α) → κ → Option α
  | [], _ => none
  | (k, v) :: rest, key => if k = key then some v else alookup rest key

/-- Python dict assignment d[key] = v: replace the binding when the key is
present, append it otherwise. -/
def aset {κ α : Type} [DecidableEq κ] : List (κ × α) → κ → α → List (κ × α)
  | [], key, v => [(key, v)]
  | (k, w) :: rest, key, v =>
    if k = key then (key, v) :: rest else (k, w) :: aset rest key v

/-- Python del d[key].  Dict keys are unique, so removing every binding of
the key is the same operation on dict-shaped lists. -/
def adel {κ α : Type} [DecidableEq κ] : List (κ × α) → κ → List (κ × α)
  | [], _ => []
  | (k, w) :: rest, key =>
    if k = key then adel rest key else (k, w) :: adel rest key

/-- SQL UPDATE ... WHERE key = ?: rewrite every row holding the key. -/
def aupdate {κ α : Type} [DecidableEq κ] : List (κ × α) → κ → (α → α) → List (κ × α)
  | [], _, _ => []
  | (k, w) :: rest, key, f =>
    if k = key then (k, f w) :: aupdate rest key f else (k, w) :: aupdate rest key f

/- --------------------------------------------------------------------
   Users table (columns user_id, coins, xp, level, last_daily) and the
   DB-backed utility functions of main.py.
   -------------------------------------------------------------------- -/

/-- One row of the users table. -/
structure UserRow where
  coins : Int
  xp : Nat
  level : Nat
  last_daily : Int
deriving DecidableEq

/-- The users table, keyed by user_id. -/
abbrev Users := List (Nat × UserRow)

/-- The column defaults of the users table (everything zero). -/
def defaultRow : UserRow := { coins := 0, xp := 0, level := 0, last_daily := 0 }

/-- ensure_user from main.py: INSERT OR IGNORE a default row. -/
def ensure_user (db : Users) (uid : Nat) : Users :=
  match alookup db uid with
  | some _ => db
  | none => db ++ [(uid, defaultRow)]

/-- get_user from main.py: SELECT * FROM users WHERE user_id = ? (fetchone);
none when the row is absent. -/
def get_user (db : Users) (uid : Nat) : Option UserRow := alookup db uid

/-- The row of uid, defaulted for a missing row (accounts are created
lazily with all columns zero, so the zero row is the effective state of an
untouched account). -/
def rowOf (db : Users) (uid : Nat) : UserRow := (get_user db uid).getD defaultRow

def coinsOf (db : Users) (uid : Nat) : Int := (rowOf db uid).coins

def xpOf (db : Users) (uid : Nat) : Nat := (rowOf db uid).xp

def levelOf (db : Users) (uid : Nat) : Nat := (rowOf db uid).level

def lastDailyOf (db : Users) (uid : Nat) : Int := (rowOf db uid).last_daily

/-- Round a non-negative integer to the nearest binary64 floating-point
value, round half to even at 53 significant bits; the result is again an
integer.  This is the implicit float(xp) conversion that the expression
xp ** 0.5 performs first, and it is exactly specified by IEEE-754. -/
def toDouble (n : Nat) : Nat :=
  if n < 2 ^ 53 then n
  else
    let e := Nat.log2 n + 1 - 53
    let q := n / 2 ^ e
    let r := n % 2 ^ e
    let q2 := if 2 ^ e < 2 * r ∨ (2 * r = 2 ^ e ∧ q % 2 = 1) then q + 1 else q
    q2 * 2 ^ e

/-- int(v ** 0.5) for an integer-valued binary64 input v, with the power
step modelled as the correctly rounded binary64 square root: writing
k = 53 - bits(floor sqrt v), the rounded 53-bit significand is the nearest
integer m to sqrt(v * 4 ^ k) (never a halfway case, since 4 N is even and
(2 i + 1) ^ 2 odd), and int truncates the value m * 2 ^ (-k) to m / 2 ^ k.
CPython evaluates v ** 0.5 through the platform pow, which agrees with the
correctly rounded square root except on a thin set of near-halfway inputs
where it may be one ulp off (either way breaking a floor(sqrt) reading),
and is exact whenever the true square root is itself representable — the
situation the C2 counterexample uses. -/
def doubleSqrtInt (v : Nat) : Nat :=
  if v = 0 then 0
  else
    let k := 53 - (Nat.log2 (Nat.sqrt v) + 1)
    let N := v * 4 ^ k
    let i := Nat.sqrt N
    let m := if (2 * i + 1) ^ 2 < 4 * N then i + 1 else i
    m / 2 ^ k

/-- new_level = int(row["xp"] ** 0.5) from add_xp: binary64 conversion of
xp, square root, truncation to an integer. -/
def py_level (xp : Nat) : Nat := doubleSqrtInt (toDouble xp)

/-- add_xp from main.py: ensure_user, UPDATE xp = xp + amount, re-read the
row, recompute the level as new_level = int(xp ** 0.5) — a binary64
floating-point computation, embedded as py_level, which differs from the
exact floor square root at large xp — store it when it exceeds the stored
level and return it in exactly that case, otherwise return none.  Every
call site passes a positive amount (random.randint(1, 3), or the default
1), so amount is a Nat. -/
def add_xp (db : Users) (uid : Nat) (amount : Nat) : Users × Option Nat :=
  let db1 := ensure_user db uid
  let db2 := aupdate db1 uid (fun r => { r with xp := r.xp + amount })
  match get_user db2 uid with
  | none => (db2, none)
  | some row =>
    let new_level := py_level row.xp
    if row.level < new_level then
      (aupdate db2 uid (fun r => { r with level := new_level }), some new_level)
    else
      (db2, none)

/-- change_coins from main.py: ensure_user, UPDATE coins = coins + delta,
then re-read and return the new balance. -/
def change_coins (db : Users) (uid : Nat) (delta : Int) : Users × Int :=
  let db1 := ensure_user db uid
  let db2 := aupdate db1 uid (fun r => { r with coins := r.coins + delta })
  (db2, coinsOf db2 uid)

/- --------------------------------------------------------------------
   Economy commands: cmd_give and cmd_daily from main.py.
   -------------------------------------------------------------------- -/

/-- Observable outcome of the give command. -/
inductive GiveResult
  | badAmount   -- replied "Enter an amount > 0"
  | rowMissing  -- get_user returned no row; row["coins"] raises TypeError
  | notEnough   -- replied "Not enough coins."
  | gave
deriving DecidableEq

/-- cmd_give from main.py: reject amount <= 0; read the sender row with
get_user and index it (raising when the row is absent); reject when the
balance is below amount; otherwise debit the sender and credit the
recipient as two independent change_coins calls. -/
def cmd_give (db : Users) (sender recipient : Nat) (amount : Int) : Users × GiveResult :=
  if amount ≤ 0 then (db, GiveResult.badAmount)
  else
    match get_user db sender with
    | none => (db, GiveResult.rowMissing)
    | some row =>
      if row.coins < amount then (db, GiveResult.notEnough)
      else
        let db1 := (change_coins db sender (-amount)).1
        let db2 := (change_coins db1 recipient amount).1
        (db2, GiveResult.gave)

/-- Observable outcome of the daily command. -/
inductive DailyResult
  | rejected            -- replied "Daily already claimed. Try later."
  | claimed (reward : Int)
deriving DecidableEq

/-- cmd_daily from main.py.  now models int(time.time()); reward models
random.randint(50, 150).  The source reads last = row["last_daily"] or 0,
which is the identity on the integer column (0 stays 0). -/
def cmd_daily (db : Users) (uid : Nat) (now reward : Int) : Users × DailyResult :=
  let db1 := ensure_user db uid
  match get_user db1 uid with
  | none => (db1, DailyResult.rejected)
  | some row =>
    if now - row.last_daily < 24 * 3600 then (db1, DailyResult.rejected)
    else
      let db2 := (change_coins db1 uid reward).1
      let db3 := aupdate db2 uid (fun r => { r with last_daily := now })
      (db3, DailyResult.claimed reward)

/- --------------------------------------------------------------------
   Trivia: string normalisation, the question pool, the session dicts and
   the trivia fragment of on_message.
   -------------------------------------------------------------------- -/

/-- ASCII whitespace stripped by str.strip() (the model covers the ASCII
whitespace range; the source strings contain no exotic whitespace). -/
def pyIsSpace (c : Char) : Bool :=
  c = ' ' || c = '\t' || c = '\n' || c = '\r' || c = '\x0b' || c = '\x0c'

/-- str.strip(): drop whitespace from both ends. -/
def pyStrip (s : String) : String :=
  String.mk (((s.data.dropWhile pyIsSpace).reverse.dropWhile pyIsSpace).reverse)

/-- str.lower(), ASCII case folding (the source compares ASCII answers). -/
def pyLower (s : String) : String := String.mk (s.data.map Char.toLower)

/-- TRIVIA_QUESTIONS from main.py (question, answer). -/
def TRIVIA_QUESTIONS : List (String × String) :=
  [("What is the capital of France?", "paris"),
   ("Which planet is known as the Red Planet?", "mars"),
   ("Who wrote Hamlet?", "william shakespeare"),
   ("What is 9 * 9?", "81")]

/-- The two module-level trivia dicts: active_trivia maps a channel id to
(expected answer, asker id); trivia_scores maps a user id to a score. -/
structure TriviaState where
  active : List (Nat × (String × Nat))
  scores : List (Nat × Nat)
deriving DecidableEq

/-- trivia_scores.get(uid, 0). -/
def scoreOf (scores : List (Nat × Nat)) (uid : Nat) : Nat := (alookup scores uid).getD 0

/-- The trivia command (slash or prefix form): random.choice is modelled by
the index qidx into TRIVIA_QUESTIONS; the session of the channel is set to
(answer, asker). -/
def trivia_cmd (st : TriviaState) (channel asker qidx : Nat) : TriviaState :=
  match TRIVIA_QUESTIONS.get? qidx with
  | some q => { st with active := aset st.active channel (q.2, asker) }
  | none => st

/-- Result of the trivia fragment of on_message for one inbound message. -/
structure TriviaMsgResult where
  state : TriviaState
  scored : Bool           -- the author earned a point on this message
  shortCircuit : Bool     -- auto-react / auto-reply / cooldown logic skipped
  processCommands : Bool  -- bot.process_commands ran for this message
deriving DecidableEq

/-- The trivia answer check of on_message: when the channel has an active
session and strip().lower() of the content equals the stored answer, add a
point to the author, delete the session of the channel, run
bot.process_commands and return; otherwise fall through (auto-react,
auto-reply, and finally bot.process_commands at the end of on_message). -/
def triviaStep (st : TriviaState) (channel author : Nat) (content : String) : TriviaMsgResult :=
  match alookup st.active channel with
  | some (answer, _) =>
    if pyLower (pyStrip content) = answer then
      { state := { active := adel st.active channel,
                   scores := aset st.scores author (scoreOf st.scores author + 1) },
        scored := true, shortCircuit := true, processCommands := true }
    else
      { state := st, scored := false, shortCircuit := false, processCommands := true }
  | none => { state := st, scored := false, shortCircuit := false, processCommands := true }

/- --------------------------------------------------------------------
   Reminders: table row, the worker cycle, Python int() string parsing,
   the time parsing of cmd_remindme and the insertion path.
   -------------------------------------------------------------------- -/

/-- One row of the reminders table. -/
structure Reminder where
  id : Nat
  user_id : Nat
  guild_id : Option Nat
  channel_id : Nat
  remind_at : Int
  content : String
  created_at : Int
deriving DecidableEq

/-- Outcome of one delivery attempt inside the worker loop: the channel did
not resolve (bot.get_channel returned None, the send is skipped), the send
succeeded, or the awaited send raised an exception. -/
inductive SendOutcome
  | noChannel
  | sendOk
  | sendFail
deriving DecidableEq

/-- Whether a row survives one worker cycle at time now.  In the source the
DELETE of a due row runs after the send inside the same try block, so a
raised send jumps to the except handler and skips the DELETE; a missing
channel skips only the send, and the DELETE still runs. -/
def reminderKept (outcome : Nat → SendOutcome) (now : Int) (r : Reminder) : Bool :=
  if r.remind_at ≤ now then
    match outcome r.id with
    | SendOutcome.sendFail => true
    | _ => false
  else true

/-- One cycle of reminders_worker from main.py: SELECT the rows with
remind_at <= now, attempt delivery per row, and DELETE each row whose
attempt completed without raising.  outcome gives the delivery result of
each row by id. -/
def reminders_worker_cycle (outcome : Nat → SendOutcome) (now : Int)
    (store : List Reminder) : List Reminder :=
  store.filter (reminderKept outcome now)

/-- The ASCII digit value of a character. -/
def digitVal (c : Char) : Nat := c.toNat - 48

/-- The digit tail of a Python base-10 int literal after its first digit:
further digits, with single underscores allowed between digits only. -/
def pyDigitRun : List Char → Nat → Option Nat
  | [], acc => some acc
  | '_' :: c :: rest, acc =>
    if c.isDigit then pyDigitRun rest (acc * 10 + digitVal c) else none
  | ['_'], _ => none
  | c :: rest, acc =>
    if c.isDigit then pyDigitRun rest (acc * 10 + digitVal c) else none

/-- An unsigned Python int literal body: one digit, then pyDigitRun. -/
def pyNatOfChars : List Char → Option Nat
  | [] => none
  | c :: rest => if c.isDigit then pyDigitRun rest (digitVal c) else none

/-- Python int(s) on a string, base 10: surrounding whitespace is stripped,
an optional single + or - sign is allowed, and the body is digits with
single underscores between digits; anything else raises ValueError
(modelled as none). -/
def pyIntOfChars (cs : List Char) : Option Int :=
  match ((cs.dropWhile pyIsSpace).reverse.dropWhile pyIsSpace).reverse with
  | '+' :: rest => (pyNatOfChars rest).map (fun n => (n : Int))
  | '-' :: rest => (pyNatOfChars rest).map (fun n => -(n : Int))
  | rest => (pyNatOfChars rest).map (fun n => (n : Int))

/-- The unit multiplier dict {"s": 1, "m": 60, "h": 3600, "d": 86400} of
cmd_remindme; every value is truthy, so the source check "if not mult"
rejects exactly the missing key. -/
def unitMult : Char → Option Nat
  | 's' => some 1
  | 'm' => some 60
  | 'h' => some 3600
  | 'd' => some 86400
  | _ => none

/-- The time parsing of cmd_remindme: unit = when[-1] (IndexError on the
empty string is caught and rejected), num = int(when[:-1]) via Python int
parsing, mult from the unit dict, and seconds = num * mult; any raise
inside the try is answered with "Invalid time format" and none. -/
def parse_when (when : String) : Option Int :=
  match when.data.reverse with
  | [] => none
  | u :: restRev =>
    match unitMult u with
    | none => none
    | some mult => (pyIntOfChars restRev.reverse).map (fun n => n * mult)

/-- schedule_reminder from main.py: INSERT the row; created_at is a fresh
int(time.time()) read taken inside schedule_reminder. -/
def schedule_reminder (store : List Reminder) (rid uid : Nat) (gid : Option Nat)
    (cid : Nat) (remind_at : Int) (content : String) (created_at : Int) : List Reminder :=
  store ++ [{ id := rid, user_id := uid, guild_id := gid, channel_id := cid,
              remind_at := remind_at, content := content, created_at := created_at }]

/-- cmd_remindme from main.py: parse the time argument; on failure reply
with the invalid-format message and insert nothing; on success insert a row
with remind_at = now1 + seconds, where now1 is the int(time.time()) read in
cmd_remindme and now2 the later int(time.time()) read in
schedule_reminder.  Returns the new store and the inserted row. -/
def cmd_remindme (store : List Reminder) (rid uid : Nat) (gid : Option Nat) (cid : Nat)
    (now1 now2 : Int) (when content : String) : List Reminder × Option Reminder :=
  match parse_when when with
  | none => (store, none)
  | some seconds =>
    let r : Reminder := { id := rid, user_id := uid, guild_id := gid, channel_id := cid,
                          remind_at := now1 + seconds, content := content,
                          created_at := now2 }
    (schedule_reminder store rid uid gid cid (now1 + seconds) content now2, some r)

/- --------------------------------------------------------------------
   Auto-react and auto-reply cooldown gates from on_message.
   -------------------------------------------------------------------- -/

/-- A cooldown map: (author id, channel id) to the last-action timestamp,
as _last_react_time / _last_reply_time in main.py.  time.time() values are
modelled as Int. -/
abbrev CooldownMap := List ((Nat × Nat) × Int)

/-- The auto-react gate of on_message, for a message that already qualifies
(configured channel, keyword match): when now minus the stored last time
(default 0) is at least the cooldown, record now and react. -/
def autoReactGate (m : CooldownMap) (key : Nat × Nat) (now cooldown : Int) :
    CooldownMap × Bool :=
  if cooldown ≤ now - (alookup m key).getD 0 then (aset m key now, true)
  else (m, false)

/-- The auto-reply gate of on_message, for a qualifying message: the
cooldown check as above, then the probability roll
random.randint(1, 100) <= AUTO_REPLY_CHANCE; the timestamp is recorded only
when both pass. -/
def autoReplyGate (m : CooldownMap) (key : Nat × Nat) (now cooldown roll chance : Int) :
    CooldownMap × Bool :=
  if cooldown ≤ now - (alookup m key).getD 0 then
    if roll ≤ chance then (aset m key now, true) else (m, false)
  else (m, false)

/- --------------------------------------------------------------------
   Reaction roles: the bindings table and the raw add / remove handlers.
   -------------------------------------------------------------------- -/

/-- One row of the reaction_roles table. -/
structure ReactionRole where
  id : Nat
  guild_id : Nat
  channel_id : Nat
  message_id : Nat
  emoji : String
  role_id : Nat
deriving DecidableEq

/-- A raw reaction gateway payload (str(payload.emoji) is the emoji field). -/
structure RawReactionPayload where
  user_id : Nat
  guild_id : Nat
  message_id : Nat
  emoji : String
deriving DecidableEq

/-- Resolution oracles for the platform caches: bot.get_guild,
guild.get_role and guild.get_member. -/
structure Env where
  guildExists : Nat → Bool
  roleExists : Nat → Nat → Bool
  memberExists : Nat → Nat → Bool

/-- What a raw reaction handler did with the event. -/
inductive HandlerResult
  | ignoredSelf                 -- early return: the reacting user is the bot
  | noBinding                   -- no matching (guild, message, emoji) row
  | guildError                  -- bot.get_guild returned None and the access raised
  | unresolved                  -- role or member did not resolve; no role change
  | acted (user role : Nat)     -- add_roles / remove_roles attempted on the member
deriving DecidableEq

/-- SELECT role_id FROM reaction_roles WHERE guild_id = ? AND message_id = ?
AND emoji = ? (fetchone: the first matching row in rowid order). -/
def findBinding (db : List ReactionRole) (g m : Nat) (e : String) : Option ReactionRole :=
  db.find? (fun b => b.guild_id == g && b.message_id == m && b.emoji == e)

/-- on_raw_reaction_add from main.py: the bot filters out its own user id
before the binding lookup. -/
def on_raw_reaction_add (env : Env) (db : List ReactionRole) (botId : Nat)
    (p : RawReactionPayload) : HandlerResult :=
  if p.user_id = botId then HandlerResult.ignoredSelf
  else
    match findBinding db p.guild_id p.message_id p.emoji with
    | none => HandlerResult.noBinding
    | some b =>
      if env.guildExists p.guild_id then
        if env.memberExists p.guild_id p.user_id && env.roleExists p.guild_id b.role_id then
          HandlerResult.acted p.user_id b.role_id
        else HandlerResult.unresolved
      else HandlerResult.guildError

/-- on_raw_reaction_remove from main.py: identical resolution logic but
with no self filter on payload.user_id. -/
def on_raw_reaction_remove (env : Env) (db : List ReactionRole) (botId : Nat)
    (p : RawReactionPayload) : HandlerResult :=
  match findBinding db p.guild_id p.message_id p.emoji with
  | none => HandlerResult.noBinding
  | some b =>
    if env.guildExists p.guild_id then
      if env.memberExists p.guild_id p.user_id && env.roleExists p.guild_id b.role_id then
        HandlerResult.acted p.user_id b.role_id
      else HandlerResult.unresolved
    else HandlerResult.guildError

/- --------------------------------------------------------------------
   Derived definitions used by the statements.
   -------------------------------------------------------------------- -/

/-- A sequence of add_xp calls against the same account (each inbound
message performs one). -/
def add_xp_seq (db : Users) (uid : Nat) (amounts : List Nat) : Users :=
  amounts.foldl (fun d a => (add_xp d uid a).1) db

/-- Modelled from the spec: the remindme input format the spec describes,
read literally — one or more digit characters immediately followed by one
unit character from {s,m,h,d}.  Used only to compare the claimed format
against the parser of the source. -/
def specTimeFormat (s : String) : Bool :=
  match s.data.reverse with
  | u :: rest => (unitMult u).isSome && !rest.isEmpty && rest.all Char.isDigit
  | [] => false

/- --------------------------------------------------------------------
   Lemmas about the association-list primitives and the user store.
   -------------------------------------------------------------------- -/

theorem alookup_aset_self {κ α : Type} [DecidableEq κ] (l : List (κ × α)) (key : κ) (v : α) :
    alookup (aset l key v) key = some v := by
  induction l with
  | nil => simp [aset, alookup]
  | cons p rest ih =>
    obtain ⟨k, w⟩ := p
    by_cases hk : k = key
    · simp [aset, hk, alookup]
    · simp [aset, hk, alookup, ih]

theorem alookup_aset_other {κ α : Type} [DecidableEq κ] (l : List (κ × α)) (key v' : κ) (v : α)
    (h : v' ≠ key) : alookup (aset l key v) v' = alookup l v' := by
  induction l with
  | nil => simp [aset, alookup, Ne.symm h]
  | cons p rest ih =>
    obtain ⟨k, w⟩ := p
    by_cases hk : k = key
    · subst hk
      simp [aset, alookup, Ne.symm h]
    · simp [aset, hk, alookup, ih]

theorem alookup_adel_self {κ α : Type} [DecidableEq κ] (l : List (κ × α)) (key : κ) :
    alookup (adel l key) key = none := by
  induction l with
  | nil => simp [adel, alookup]
  | cons p rest ih =>
    obtain ⟨k, w⟩ := p
    by_cases hk : k = key
    · simp [adel, hk, ih]
    · simp [adel, hk, alookup, ih]

theorem alookup_aupdate_self {κ α : Type} [DecidableEq κ] (l : List (κ × α)) (key : κ)
    (f : α → α) : alookup (aupdate l key f) key = (alookup l key).map f := by
  induction l with
  | nil => simp [aupdate, alookup]
  | cons p rest ih =>
    obtain ⟨k, w⟩ := p
    by_cases hk : k = key
    · simp [aupdate, hk, alookup]
    · simp [aupdate, hk, alookup, ih]

theorem alookup_aupdate_other {κ α : Type} [DecidableEq κ] (l : List (κ × α)) (key v' : κ)
    (f : α → α) (h : v' ≠ key) : alookup (aupdate l key f) v' = alookup l v' := by
  induction l with
  | nil => simp [aupdate, alookup]
  | cons p rest ih =>
    obtain ⟨k, w⟩ := p
    by_cases hk : k = key
    · subst hk
      simp [aupdate, alookup, Ne.symm h, ih]
    · simp [aupdate, hk, alookup, ih]

theorem alookup_append {κ α : Type} [DecidableEq κ] (l l' : List (κ × α)) (key : κ) :
    alookup (l ++ l') key =
      match alookup l key with
      | some v => some v
      | none => alookup l' key := by
  induction l with
  | nil => simp [alookup]
  | cons p rest ih =>
    obtain ⟨k, w⟩ := p
    by_cases hk : k = key <;> simp [alookup, hk, ih]

theorem get_user_ensure_self (db : Users) (uid : Nat) :
    get_user (ensure_user db uid) uid = some (rowOf db uid) := by
  unfold ensure_user rowOf get_user
  cases h : alookup db uid with
  | some v => simp [h]
  | none => rw [alookup_append, h]; simp [alookup]

theorem get_user_ensure_other (db : Users) (uid v : Nat) (h : v ≠ uid) :
    get_user (ensure_user db uid) v = get_user db v := by
  unfold ensure_user get_user
  cases hu : alookup db uid with
  | some w => rfl
  | none => rw [alookup_append]; cases hv : alookup db v <;> simp [alookup, Ne.symm h]

/- --------------------------------------------------------------------
   Claim theorems.
   -------------------------------------------------------------------- -/

theorem reminderKept_true_iff (outcome : Nat → SendOutcome) (now : Int) (r : Reminder) :
    reminderKept outcome now r = true ↔
      (now < r.remind_at ∨ outcome r.id = SendOutcome.sendFail) := by
  unfold reminderKept
  by_cases h : r.remind_at ≤ now
  · have hn : ¬ now < r.remind_at := not_lt.mpr h
    cases ho : outcome r.id <;> simp [h, ho, hn]
  · have hn : now < r.remind_at := not_le.mp h
    simp [h, hn]

/-- C1 counterexample: a reminder due at the cycle time (remind_at = 0,
now = 10) whose send raises is NOT deleted by the worker cycle — the DELETE
sits after the awaited send inside the same try block, so the exception
skips it and the row survives for a retry, contradicting the claimed
unconditional at-most-once deletion. -/
theorem C1_counterexample :
    ({ id := 1, user_id := 2, guild_id := none, channel_id := 3, remind_at := 0,
       content := "x", created_at := 0 } : Reminder).remind_at ≤ 10 ∧
    reminders_worker_cycle (fun _ => SendOutcome.sendFail) 10
      [{ id := 1, user_id := 2, guild_id := none, channel_id := 3, remind_at := 0,
         content := "x", created_at := 0 }] =
      [{ id := 1, user_id := 2, guild_id := none, channel_id := 3, remind_at := 0,
         content := "x", created_at := 0 }] := by
  exact ⟨by decide, by decide⟩

/-- C1 (amended): in a worker cycle at time now, a row survives the cycle
exactly when it is not yet due or its send raised an exception; that is, a
due row is deleted after the delivery attempt when the attempt did not
raise (send succeeded, or the channel did not resolve and the send was
skipped), while a due row whose send raised is kept and retried in a later
cycle. -/
theorem C1_cycle_deletion (outcome : Nat → SendOutcome) (now : Int)
    (store : List Reminder) (r : Reminder) :
    r ∈ reminders_worker_cycle outcome now store ↔
      r ∈ store ∧ (now < r.remind_at ∨ outcome r.id = SendOutcome.sendFail) := by
  simp only [reminders_worker_cycle, List.mem_filter, reminderKept_true_iff]

/-- C6 counterexample: "1_0m" is not an integer immediately followed by a
unit character (it carries an interior underscore), yet the parser accepts
it with offset 600, because Python int() allows underscores between
digits; so the parser accepts strictly more than the claimed format. -/
theorem C6_counterexample :
    parse_when "1_0m" = some 600 ∧ specTimeFormat "1_0m" = false := by
  exact ⟨by decide, by decide⟩

/-- C6 (amended): the parser accepts exactly a string whose last character
is a unit in {s,m,h,d} and whose remaining prefix is accepted by Python
int() — which, beyond plain digit strings, also tolerates surrounding
ASCII whitespace, one leading sign, and single underscores between digits —
with offset amount * unit_seconds; in particular "10m" yields 600, "2h"
yields 7200, "1d" yields 86400, and "10x" and "m10" are rejected with no
reminder created. -/
theorem C6_parse_amended :
    (∀ (pre : List Char) (u : Char) (m : Nat), unitMult u = some m →
        parse_when (String.mk (pre ++ [u])) =
          (pyIntOfChars pre).map (fun n => n * (m : Int))) ∧
    (∀ (s : String) (v : Int), parse_when s = some v →
        ∃ pre u m n, s.data = pre ++ [u] ∧ unitMult u = some m ∧
          pyIntOfChars pre = some n ∧ v = n * (m : Int)) ∧
    parse_when "10m" = some 600 ∧ parse_when "2h" = some 7200 ∧
    parse_when "1d" = some 86400 ∧ parse_when "10x" = none ∧ parse_when "m10" = none := by
  refine ⟨?_, ?_, by decide, by decide, by decide, by decide, by decide⟩
  · intro pre u m hm
    simp [parse_when, List.reverse_append, hm]
  · intro s v hv
    unfold parse_when at hv
    split at hv
    next => simp at hv
    next u restRev hrev =>
      split at hv
      next => simp at hv
      next m hm =>
        obtain ⟨n, hn, hmul⟩ := Option.map_eq_some'.mp hv
        refine ⟨restRev.reverse, u, m, n, ?_, hm, hn, hmul.symm⟩
        have := congrArg List.reverse hrev
        simpa using this

/-- C6 witness: the decomposition applied to the prefix "10" and the unit
character m. -/
theorem C6_parse_amended_witness :
    unitMult 'm' = some 60 ∧
    parse_when (String.mk (['1', '0'] ++ ['m'])) =
      (pyIntOfChars ['1', '0']).map (fun n => n * (60 : Int)) :=
  ⟨by decide, C6_parse_amended.1 ['1', '0'] 'm' 60 (by decide)⟩

/-- C7 counterexample: the input "0s" is accepted by the parser (offset 0)
and inserts a row with remind_at = created_at = 100, so the inserted row
does not satisfy remind_at > created_at. -/
theorem C7_counterexample :
    (cmd_remindme [] 1 2 none 3 100 100 "0s" "tea").2 =
      some { id := 1, user_id := 2, guild_id := none, channel_id := 3,
             remind_at := 100, content := "tea", created_at := 100 } ∧
    ¬ ((100 : Int) > 100) := by
  exact ⟨by decide, by decide⟩

/-- C7 (amended): an accepted remindme input inserts a row with
remind_at = now1 + seconds and created_at = now2 (the second clock read,
taken inside schedule_reminder); remind_at > created_at therefore holds
exactly when now2 < now1 + seconds — in particular whenever the parsed
offset is positive and the clock did not advance past it between the two
reads — while a zero or negative parsed offset (such as "0s" or "-5m",
both accepted) yields remind_at ≤ created_at. -/
theorem C7_remind_at_amended (store : List Reminder) (rid uid : Nat) (gid : Option Nat)
    (cid : Nat) (now1 now2 : Int) (when content : String) (seconds : Int) (r : Reminder)
    (hp : parse_when when = some seconds)
    (hr : (cmd_remindme store rid uid gid cid now1 now2 when content).2 = some r) :
    r.remind_at = now1 + seconds ∧ r.created_at = now2 ∧
      (now2 < now1 + seconds → r.created_at < r.remind_at) := by
  unfold cmd_remindme at hr
  rw [hp] at hr
  simp only at hr
  cases hr
  exact ⟨rfl, rfl, fun h => h⟩

/-- C7 witness: the "10m" input with both clock reads at 0 inserts a row
with remind_at = 600 and created_at = 0. -/
theorem C7_remind_at_amended_witness :
    parse_when "10m" = some 600 ∧
    (cmd_remindme [] 1 2 none 3 0 0 "10m" "tea").2 =
      some { id := 1, user_id := 2, guild_id := none, channel_id := 3,
             remind_at := 0 + 600, content := "tea", created_at := 0 } ∧
    (({ id := 1, user_id := 2, guild_id := none, channel_id := 3,
        remind_at := 0 + 600, content := "tea", created_at := 0 } : Reminder).remind_at =
          0 + 600 ∧
      ({ id := 1, user_id := 2, guild_id := none, channel_id := 3,
         remind_at := 0 + 600, content := "tea", created_at := 0 } : Reminder).created_at = 0 ∧
      ((0 : Int) < 0 + 600 →
        ({ id := 1, user_id := 2, guild_id := none, channel_id := 3,
           remind_at := 0 + 600, content := "tea", created_at := 0 } : Reminder).created_at <
          ({ id := 1, user_id := 2, guild_id := none, channel_id := 3,
             remind_at := 0 + 600, content := "tea", created_at := 0 } : Reminder).remind_at)) :=
  ⟨by decide, by decide,
    C7_remind_at_amended [] 1 2 none 3 0 0 "10m" "tea" 600 _ (by decide) (by decide)⟩

/-- C9: when the sender has no users row, cmd_give with a positive amount
ends in the raising path (get_user returned None and row indexing fails),
not in the "Not enough coins." rejection, and no balances change. -/
theorem C9_give_missing_sender (db : Users) (sender recipient : Nat) (amount : Int)
    (hpos : 0 < amount) (hmiss : get_user db sender = none) :
    (cmd_give db sender recipient amount).2 = GiveResult.rowMissing ∧
    (cmd_give db sender recipient amount).2 ≠ GiveResult.notEnough ∧
    (cmd_give db sender recipient amount).1 = db := by
  unfold cmd_give
  rw [if_neg (by omega : ¬ amount ≤ (0 : Int)), hmiss]
  exact ⟨rfl, by simp, rfl⟩

/-- C9 witness: an empty users table, sender 1, recipient 2, amount 5. -/
theorem C9_give_missing_sender_witness :
    (0 : Int) < 5 ∧ get_user [] 1 = none ∧
    ((cmd_give [] 1 2 5).2 = GiveResult.rowMissing ∧
      (cmd_give [] 1 2 5).2 ≠ GiveResult.notEnough ∧
      (cmd_give [] 1 2 5).1 = []) :=
  ⟨by decide, by decide, C9_give_missing_sender [] 1 2 5 (by decide) (by decide)⟩

/-- C10: on a self-reaction event with a matching binding and resolvable
guild, member and role, the raw add handler returns early on the self
filter while the raw remove handler, which has no such filter, looks the
binding up and attempts to remove the bound role from the bot member. -/
theorem C10_remove_lacks_self_filter (env : Env) (db : List ReactionRole) (botId : Nat)
    (p : RawReactionPayload) (b : ReactionRole)
    (hself : p.user_id = botId)
    (hbind : findBinding db p.guild_id p.message_id p.emoji = some b)
    (hg : env.guildExists p.guild_id = true)
    (hm : env.memberExists p.guild_id p.user_id = true)
    (hrole : env.roleExists p.guild_id b.role_id = true) :
    on_raw_reaction_add env db botId p = HandlerResult.ignoredSelf ∧
    on_raw_reaction_remove env db botId p = HandlerResult.acted botId b.role_id := by
  constructor
  · unfold on_raw_reaction_add
    rw [if_pos hself]
  · unfold on_raw_reaction_remove
    rw [hbind]
    simp only [hg, hm, hrole, Bool.and_self, if_true]
    simp [hself]

/-- C10 witness: bot id 7 reacting on its own binding row. -/
theorem C10_remove_lacks_self_filter_witness :
    (({ user_id := 7, guild_id := 1, message_id := 2,
        emoji := "star" } : RawReactionPayload).user_id = 7) ∧
    findBinding [{ id := 1, guild_id := 1, channel_id := 4, message_id := 2,
                   emoji := "star", role_id := 9 }] 1 2 "star" =
      some { id := 1, guild_id := 1, channel_id := 4, message_id := 2,
             emoji := "star", role_id := 9 } ∧
    (on_raw_reaction_add ⟨fun _ => true, fun _ _ => true, fun _ _ => true⟩
        [{ id := 1, guild_id := 1, channel_id := 4, message_id := 2,
           emoji := "star", role_id := 9 }] 7
        { user_id := 7, guild_id := 1, message_id := 2, emoji := "star" } =
        HandlerResult.ignoredSelf ∧
      on_raw_reaction_remove ⟨fun _ => true, fun _ _ => true, fun _ _ => true⟩
        [{ id := 1, guild_id := 1, channel_id := 4, message_id := 2,
           emoji := "star", role_id := 9 }] 7
        { user_id := 7, guild_id := 1, message_id := 2, emoji := "star" } =
        HandlerResult.acted 7 9) :=
  ⟨rfl, by decide,
    C10_remove_lacks_self_filter ⟨fun _ => true, fun _ _ => true, fun _ _ => true⟩
      [{ id := 1, guild_id := 1, channel_id := 4, message_id := 2,
         emoji := "star", role_id := 9 }] 7
      { user_id := 7, guild_id := 1, message_id := 2, emoji := "star" }
      { id := 1, guild_id := 1, channel_id := 4, message_id := 2,
        emoji := "star", role_id := 9 }
      rfl (by decide) rfl rfl rfl⟩

/-- C8: for both subsystems independently, two qualifying messages from
the same author in the same channel whose timestamps lie within the
cooldown window (the second arriving no earlier than the first) trigger
the action at most once: a recorded trigger at t1 forces the t2 check
now - last >= cooldown to fail. -/
theorem C8_cooldown_at_most_once (m mr : CooldownMap) (key : Nat × Nat)
    (t1 t2 cooldown roll1 roll2 chance : Int)
    (hord : t1 ≤ t2) (hwin : t2 - t1 < cooldown) :
    (¬ ((autoReactGate m key t1 cooldown).2 = true ∧
        (autoReactGate (autoReactGate m key t1 cooldown).1 key t2 cooldown).2 = true)) ∧
    (¬ ((autoReplyGate mr key t1 cooldown roll1 chance).2 = true ∧
        (autoReplyGate (autoReplyGate mr key t1 cooldown roll1 chance).1 key t2 cooldown
            roll2 chance).2 = true)) := by
  constructor
  · rintro ⟨h1, h2⟩
    unfold autoReactGate at h1 h2
    by_cases hc : cooldown ≤ t1 - (alookup m key).getD 0
    · rw [if_pos hc] at h1 h2
      rw [alookup_aset_self] at h2
      rw [if_neg (by simp; omega : ¬ cooldown ≤ t2 - ((some t1).getD 0))] at h2
      simp at h2
    · rw [if_neg hc] at h1
      simp at h1
  · rintro ⟨h1, h2⟩
    unfold autoReplyGate at h1 h2
    by_cases hc : cooldown ≤ t1 - (alookup mr key).getD 0
    · rw [if_pos hc] at h1 h2
      by_cases hroll : roll1 ≤ chance
      · rw [if_pos hroll] at h1 h2
        rw [alookup_aset_self] at h2
        rw [if_neg (by simp; omega : ¬ cooldown ≤ t2 - ((some t1).getD 0))] at h2
        simp at h2
      · rw [if_neg hroll] at h1
        simp at h1
    · rw [if_neg hc] at h1
      simp at h1

/-- C8 witness: empty cooldown maps, messages at t = 0 and t = 5 under a
10-second cooldown. -/
theorem C8_cooldown_at_most_once_witness :
    (0 : Int) ≤ 5 ∧ (5 : Int) - 0 < 10 ∧
    ((¬ ((autoReactGate [] (1, 2) 0 10).2 = true ∧
        (autoReactGate (autoReactGate [] (1, 2) 0 10).1 (1, 2) 5 10).2 = true)) ∧
      (¬ ((autoReplyGate [] (1, 2) 0 10 1 100).2 = true ∧
        (autoReplyGate (autoReplyGate [] (1, 2) 0 10 1 100).1 (1, 2) 5 10 1 100).2 = true))) :=
  ⟨by decide, by decide,
    C8_cooldown_at_most_once [] [] (1, 2) 0 5 10 1 1 100 (by decide) (by decide)⟩

theorem ensure_user_present (db : Users) (uid : Nat) (row : UserRow)
    (h : get_user db uid = some row) : ensure_user db uid = db := by
  unfold ensure_user
  unfold get_user at h
  rw [h]

theorem rowOf_ensure (db : Users) (uid v : Nat) :
    rowOf (ensure_user db uid) v = rowOf db v := by
  by_cases h : v = uid
  · subst h
    unfold rowOf
    rw [get_user_ensure_self]
    rfl
  · unfold rowOf
    rw [get_user_ensure_other db uid v h]

theorem coinsOf_eq_of_get (db : Users) (uid : Nat) (row : UserRow)
    (h : get_user db uid = some row) : coinsOf db uid = row.coins := by
  unfold coinsOf rowOf
  rw [h]
  rfl

/-- C3: for distinct sender and recipient, give changes no balances when
the amount is non-positive or exceeds the sender balance, and on the happy
path debits the sender by exactly amount, credits the recipient by exactly
amount, and preserves the sender + recipient coin total. -/
theorem C3_give_transfer (db : Users) (sender recipient : Nat) (amount : Int) (row : UserRow)
    (hne : sender ≠ recipient) (hrow : get_user db sender = some row) :
    (amount ≤ 0 → (cmd_give db sender recipient amount).1 = db) ∧
    (row.coins < amount → (cmd_give db sender recipient amount).1 = db) ∧
    (0 < amount → amount ≤ row.coins →
        coinsOf (cmd_give db sender recipient amount).1 sender = coinsOf db sender - amount ∧
        coinsOf (cmd_give db sender recipient amount).1 recipient = coinsOf db recipient + amount ∧
        coinsOf (cmd_give db sender recipient amount).1 sender +
            coinsOf (cmd_give db sender recipient amount).1 recipient =
          coinsOf db sender + coinsOf db recipient) := by
  refine ⟨?_, ?_, ?_⟩
  · intro h
    unfold cmd_give
    rw [if_pos h]
  · intro hlt
    by_cases h0 : amount ≤ 0
    · unfold cmd_give
      rw [if_pos h0]
    · simp only [cmd_give, hrow, if_neg h0, if_pos hlt]
  · intro hpos hle
    have hgive : (cmd_give db sender recipient amount).1 =
        aupdate
          (ensure_user (aupdate db sender (fun r => { r with coins := r.coins + -amount }))
            recipient)
          recipient (fun r => { r with coins := r.coins + amount }) := by
      simp only [cmd_give, hrow, if_neg (by omega : ¬ amount ≤ (0 : Int)),
        if_neg (by omega : ¬ row.coins < amount), change_coins]
      rw [ensure_user_present db sender row hrow]
    have hrowA : rowOf (aupdate db sender (fun r => { r with coins := r.coins + -amount }))
        recipient = rowOf db recipient := by
      unfold rowOf get_user
      rw [alookup_aupdate_other _ _ _ _ (Ne.symm hne)]
    have hget_s : get_user (cmd_give db sender recipient amount).1 sender =
        some { row with coins := row.coins + -amount } := by
      rw [hgive]
      have e1 : get_user
          (aupdate
            (ensure_user (aupdate db sender (fun r => { r with coins := r.coins + -amount }))
              recipient)
            recipient (fun r => { r with coins := r.coins + amount })) sender =
          get_user
            (ensure_user (aupdate db sender (fun r => { r with coins := r.coins + -amount }))
              recipient) sender :=
        alookup_aupdate_other _ _ _ _ hne
      rw [e1, get_user_ensure_other _ recipient sender hne]
      have e2 : get_user (aupdate db sender (fun r => { r with coins := r.coins + -amount }))
          sender =
          (get_user db sender).map (fun r => { r with coins := r.coins + -amount }) :=
        alookup_aupdate_self _ _ _
      rw [e2, hrow]
      rfl
    have hget_r : get_user (cmd_give db sender recipient amount).1 recipient =
        some { rowOf db recipient with coins := (rowOf db recipient).coins + amount } := by
      rw [hgive]
      have e1 : get_user
          (aupdate
            (ensure_user (aupdate db sender (fun r => { r with coins := r.coins + -amount }))
              recipient)
            recipient (fun r => { r with coins := r.coins + amount })) recipient =
          (get_user
            (ensure_user (aupdate db sender (fun r => { r with coins := r.coins + -amount }))
              recipient) recipient).map (fun r => { r with coins := r.coins + amount }) :=
        alookup_aupdate_self _ _ _
      rw [e1, get_user_ensure_self _ recipient, hrowA]
      rfl
    have hcs : coinsOf db sender = row.coins := coinsOf_eq_of_get db sender row hrow
    have hfs := coinsOf_eq_of_get _ sender _ hget_s
    have hfr := coinsOf_eq_of_get _ recipient _ hget_r
    refine ⟨?_, ?_, ?_⟩
    · rw [hfs, hcs]; ring
    · rw [hfr]; rfl
    · rw [hfs, hfr, hcs]
      show row.coins + -amount + (coinsOf db recipient + amount) = row.coins + coinsOf db recipient
      ring


/-- C3 witness: sender 1 holding 10 coins gives 4 coins to recipient 2. -/
theorem C3_give_transfer_witness :
    (1 : Nat) ≠ 2 ∧
    get_user [(1, { coins := 10, xp := 0, level := 0, last_daily := 0 })] 1 =
      some { coins := 10, xp := 0, level := 0, last_daily := 0 } ∧
    (((4 : Int) ≤ 0 →
        (cmd_give [(1, { coins := 10, xp := 0, level := 0, last_daily := 0 })] 1 2 4).1 =
          [(1, { coins := 10, xp := 0, level := 0, last_daily := 0 })]) ∧
      (({ coins := 10, xp := 0, level := 0, last_daily := 0 } : UserRow).coins < 4 →
        (cmd_give [(1, { coins := 10, xp := 0, level := 0, last_daily := 0 })] 1 2 4).1 =
          [(1, { coins := 10, xp := 0, level := 0, last_daily := 0 })]) ∧
      ((0 : Int) < 4 →
        (4 : Int) ≤ ({ coins := 10, xp := 0, level := 0, last_daily := 0 } : UserRow).coins →
        coinsOf (cmd_give [(1, { coins := 10, xp := 0, level := 0, last_daily := 0 })] 1 2 4).1 1 =
            coinsOf [(1, { coins := 10, xp := 0, level := 0, last_daily := 0 })] 1 - 4 ∧
        coinsOf (cmd_give [(1, { coins := 10, xp := 0, level := 0, last_daily := 0 })] 1 2 4).1 2 =
            coinsOf [(1, { coins := 10, xp := 0, level := 0, last_daily := 0 })] 2 + 4 ∧
        coinsOf (cmd_give [(1, { coins := 10, xp := 0, level := 0, last_daily := 0 })] 1 2 4).1 1 +
            coinsOf (cmd_give [(1, { coins := 10, xp := 0, level := 0, last_daily := 0 })] 1 2 4).1 2 =
          coinsOf [(1, { coins := 10, xp := 0, level := 0, last_daily := 0 })] 1 +
            coinsOf [(1, { coins := 10, xp := 0, level := 0, last_daily := 0 })] 2)) :=
  ⟨by decide, by decide,
    C3_give_transfer [(1, { coins := 10, xp := 0, level := 0, last_daily := 0 })] 1 2 4
      { coins := 10, xp := 0, level := 0, last_daily := 0 } (by decide) (by decide)⟩

/-- C5: daily is rejected with coins and last_daily unchanged when
now - last_daily < 86400 seconds; otherwise it is accepted, the reward
(random.randint guarantees a value in [50, 150]) is added to the coins,
and last_daily is set to the acceptance time now. -/
theorem C5_daily (db : Users) (uid : Nat) (now reward : Int)
    (hlo : 50 ≤ reward) (hhi : reward ≤ 150) :
    (now - lastDailyOf db uid < 86400 →
        (cmd_daily db uid now reward).2 = DailyResult.rejected ∧
        coinsOf (cmd_daily db uid now reward).1 uid = coinsOf db uid ∧
        lastDailyOf (cmd_daily db uid now reward).1 uid = lastDailyOf db uid) ∧
    (86400 ≤ now - lastDailyOf db uid →
        (cmd_daily db uid now reward).2 = DailyResult.claimed reward ∧
        50 ≤ reward ∧ reward ≤ 150 ∧
        coinsOf (cmd_daily db uid now reward).1 uid = coinsOf db uid + reward ∧
        lastDailyOf (cmd_daily db uid now reward).1 uid = now) := by
  have hget1 : get_user (ensure_user db uid) uid = some (rowOf db uid) :=
    get_user_ensure_self db uid
  constructor
  · intro h
    have hc : now - (rowOf db uid).last_daily < 24 * 3600 := by
      unfold lastDailyOf at h
      omega
    have hr2 : (cmd_daily db uid now reward).2 = DailyResult.rejected := by
      simp only [cmd_daily, hget1, if_pos hc]
    have hr1 : (cmd_daily db uid now reward).1 = ensure_user db uid := by
      simp only [cmd_daily, hget1, if_pos hc]
    refine ⟨hr2, ?_, ?_⟩
    · rw [hr1]
      unfold coinsOf
      rw [rowOf_ensure]
    · rw [hr1]
      unfold lastDailyOf
      rw [rowOf_ensure]
  · intro h
    have hc : ¬ (now - (rowOf db uid).last_daily < 24 * 3600) := by
      unfold lastDailyOf at h
      omega
    have hr2 : (cmd_daily db uid now reward).2 = DailyResult.claimed reward := by
      simp only [cmd_daily, hget1, if_neg hc, change_coins]
    have hr1 : (cmd_daily db uid now reward).1 =
        aupdate
          (aupdate (ensure_user db uid) uid (fun r => { r with coins := r.coins + reward }))
          uid (fun r => { r with last_daily := now }) := by
      simp only [cmd_daily, hget1, if_neg hc, change_coins]
      rw [ensure_user_present (ensure_user db uid) uid (rowOf db uid) hget1]
    have hget3 : get_user (cmd_daily db uid now reward).1 uid =
        some { rowOf db uid with coins := (rowOf db uid).coins + reward, last_daily := now } := by
      rw [hr1]
      have e1 : get_user
          (aupdate
            (aupdate (ensure_user db uid) uid (fun r => { r with coins := r.coins + reward }))
            uid (fun r => { r with last_daily := now })) uid =
          (get_user (aupdate (ensure_user db uid) uid
              (fun r => { r with coins := r.coins + reward })) uid).map
            (fun r => { r with last_daily := now }) := alookup_aupdate_self _ _ _
      have e2 : get_user (aupdate (ensure_user db uid) uid
            (fun r => { r with coins := r.coins + reward })) uid =
          (get_user (ensure_user db uid) uid).map
            (fun r => { r with coins := r.coins + reward }) := alookup_aupdate_self _ _ _
      rw [e1, e2, hget1]
      rfl
    refine ⟨hr2, hlo, hhi, ?_, ?_⟩
    · rw [coinsOf_eq_of_get _ _ _ hget3]
      rfl
    · unfold lastDailyOf rowOf
      rw [hget3]
      rfl


/-- C5 witness: an untouched account claiming at time 90000 with reward
100 (the reject implication is vacuous there, the accept one fires). -/
theorem C5_daily_witness :
    (50 : Int) ≤ 100 ∧ (100 : Int) ≤ 150 ∧
    (((90000 : Int) - lastDailyOf [] 1 < 86400 →
        (cmd_daily [] 1 90000 100).2 = DailyResult.rejected ∧
        coinsOf (cmd_daily [] 1 90000 100).1 1 = coinsOf [] 1 ∧
        lastDailyOf (cmd_daily [] 1 90000 100).1 1 = lastDailyOf [] 1) ∧
      ((86400 : Int) ≤ 90000 - lastDailyOf [] 1 →
        (cmd_daily [] 1 90000 100).2 = DailyResult.claimed 100 ∧
        (50 : Int) ≤ 100 ∧ (100 : Int) ≤ 150 ∧
        coinsOf (cmd_daily [] 1 90000 100).1 1 = coinsOf [] 1 + 100 ∧
        lastDailyOf (cmd_daily [] 1 90000 100).1 1 = 90000)) :=
  ⟨by decide, by decide, C5_daily [] 1 90000 100 (by decide) (by decide)⟩

/-- Single add_xp step: after the update the stored level is the maximum
of its previous value and the computed new_level = int(xp ** 0.5) (the
code only ever writes the computed value when it exceeds the stored one),
xp grows by amount, the level does not drop, and the return value signals
exactly a level increase. -/
theorem add_xp_spec (db : Users) (uid : Nat) (amount : Nat) :
    levelOf (add_xp db uid amount).1 uid =
      max (levelOf db uid) (py_level (xpOf db uid + amount)) ∧
    xpOf (add_xp db uid amount).1 uid = xpOf db uid + amount ∧
    levelOf db uid ≤ levelOf (add_xp db uid amount).1 uid ∧
    (add_xp db uid amount).2 =
      (if levelOf db uid < levelOf (add_xp db uid amount).1 uid
       then some (levelOf (add_xp db uid amount).1 uid) else none) := by
  have hget1 : get_user (ensure_user db uid) uid = some (rowOf db uid) :=
    get_user_ensure_self db uid
  have hget2 : get_user (aupdate (ensure_user db uid) uid
        (fun r => { r with xp := r.xp + amount })) uid =
      some { rowOf db uid with xp := (rowOf db uid).xp + amount } := by
    have e : get_user (aupdate (ensure_user db uid) uid
          (fun r => { r with xp := r.xp + amount })) uid =
        (get_user (ensure_user db uid) uid).map (fun r => { r with xp := r.xp + amount }) :=
      alookup_aupdate_self _ _ _
    rw [e, hget1]
    rfl
  by_cases hlt : (rowOf db uid).level < py_level ((rowOf db uid).xp + amount)
  · have hr1 : (add_xp db uid amount).1 =
        aupdate
          (aupdate (ensure_user db uid) uid (fun r => { r with xp := r.xp + amount }))
          uid (fun r => { r with level := py_level ((rowOf db uid).xp + amount) }) := by
      simp only [add_xp, hget2, if_pos hlt]
    have hr2 : (add_xp db uid amount).2 = some (py_level ((rowOf db uid).xp + amount)) := by
      simp only [add_xp, hget2, if_pos hlt]
    have hget3 : get_user (add_xp db uid amount).1 uid =
        some { rowOf db uid with xp := (rowOf db uid).xp + amount, level := py_level ((rowOf db uid).xp + amount) } := by
      rw [hr1]
      have e : get_user (aupdate
            (aupdate (ensure_user db uid) uid (fun r => { r with xp := r.xp + amount }))
            uid (fun r => { r with level := py_level ((rowOf db uid).xp + amount) })) uid =
          (get_user (aupdate (ensure_user db uid) uid
              (fun r => { r with xp := r.xp + amount })) uid).map
            (fun r => { r with level := py_level ((rowOf db uid).xp + amount) }) :=
        alookup_aupdate_self _ _ _
      rw [e, hget2]
      rfl
    have hlev : levelOf (add_xp db uid amount).1 uid =
        py_level ((rowOf db uid).xp + amount) := by
      unfold levelOf rowOf
      rw [hget3]
      rfl
    have hxp : xpOf (add_xp db uid amount).1 uid = (rowOf db uid).xp + amount := by
      unfold xpOf rowOf
      rw [hget3]
      rfl
    refine ⟨?_, ?_, ?_, ?_⟩
    · rw [hlev]
      exact (max_eq_right (le_of_lt hlt)).symm
    · rw [hxp]
      rfl
    · rw [hlev]
      exact le_of_lt hlt
    · rw [hr2, hlev, if_pos ?_]
      exact hlt
  · have hr1 : (add_xp db uid amount).1 =
        aupdate (ensure_user db uid) uid (fun r => { r with xp := r.xp + amount }) := by
      simp only [add_xp, hget2, if_neg hlt]
    have hr2 : (add_xp db uid amount).2 = none := by
      simp only [add_xp, hget2, if_neg hlt]
    have hlev : levelOf (add_xp db uid amount).1 uid = (rowOf db uid).level := by
      rw [hr1]
      unfold levelOf rowOf
      rw [hget2]
      rfl
    have hxp : xpOf (add_xp db uid amount).1 uid = (rowOf db uid).xp + amount := by
      rw [hr1]
      unfold xpOf rowOf
      rw [hget2]
      rfl
    refine ⟨?_, ?_, ?_, ?_⟩
    · rw [hlev]
      exact (max_eq_left (not_lt.mp hlt)).symm
    · rw [hxp]
      rfl
    · rw [hlev]
      exact le_refl _
    · rw [hr2, hlev, if_neg ?_]
      exact lt_irrefl _

/-- Level monotonicity across a sequence of add_xp calls: the stored level
never decreases, for any level computation. -/
theorem add_xp_seq_mono (uid : Nat) (amounts : List Nat) :
    ∀ db : Users, levelOf db uid ≤ levelOf (add_xp_seq db uid amounts) uid := by
  induction amounts with
  | nil =>
    intro db
    simp [add_xp_seq]
  | cons a as ih =>
    intro db
    have h := add_xp_spec db uid a
    have hstep : add_xp_seq db uid (a :: as) = add_xp_seq (add_xp db uid a).1 uid as := rfl
    rw [hstep]
    exact le_trans h.2.2.1 (ih (add_xp db uid a).1)

theorem sqrt_pre_eval : Nat.sqrt 18014398509481982 = 134217727 :=
  (Nat.eq_sqrt.mpr (by constructor <;> norm_num)).symm

theorem sqrt_post_eval : Nat.sqrt 18014398509481983 = 134217727 :=
  (Nat.eq_sqrt.mpr (by constructor <;> norm_num)).symm

theorem toDouble_eval : toDouble 18014398509481983 = 18014398509481984 := by
  have hlog : Nat.log2 18014398509481983 = 53 := by
    rw [Nat.log2_eq_log_two]
    exact Nat.log_eq_of_pow_le_of_lt_pow (by norm_num) (by norm_num)
  simp only [toDouble, hlog]
  decide

theorem py_level_eval : py_level 18014398509481983 = 134217728 := by
  have hs1 : Nat.sqrt 18014398509481984 = 134217728 := by
    have h : (18014398509481984 : Nat) = 134217728 * 134217728 := by norm_num
    rw [h, Nat.sqrt_eq]
  have hlog : Nat.log2 134217728 = 27 := by
    rw [Nat.log2_eq_log_two]
    exact Nat.log_eq_of_pow_le_of_lt_pow (by norm_num) (by norm_num)
  have hs2 : Nat.sqrt (18014398509481984 * 4 ^ (53 - (27 + 1))) = 4503599627370496 := by
    have h : (18014398509481984 : Nat) * 4 ^ (53 - (27 + 1)) =
        4503599627370496 * 4503599627370496 := by norm_num
    rw [h, Nat.sqrt_eq]
  unfold py_level
  rw [toDouble_eval]
  simp only [doubleSqrtInt, hs1, hlog, hs2]
  decide

/-- C2 counterexample: account 1 holds xp = 2 ^ 54 - 2 with the consistent
level 134217727 = floor(sqrt(xp)); one more xp point brings xp to
2 ^ 54 - 1, whose float conversion rounds up to 2 ^ 54, so the code
computes int((2 ^ 54 - 1) ** 0.5) = 2 ^ 27 = 134217728 and stores it,
while floor(sqrt(xp)) is still 134217727: immediately after the update the
stored level does not equal floor(sqrt(xp)). -/
theorem C2_counterexample :
    py_level 18014398509481983 = 134217728 ∧
    Nat.sqrt 18014398509481983 = 134217727 ∧
    levelOf [(1, { coins := 0, xp := 18014398509481982, level := 134217727, last_daily := 0 })] 1 =
      Nat.sqrt (xpOf [(1, { coins := 0, xp := 18014398509481982, level := 134217727, last_daily := 0 })] 1) ∧
    (add_xp [(1, { coins := 0, xp := 18014398509481982, level := 134217727, last_daily := 0 })] 1 1).2 =
      some 134217728 ∧
    levelOf (add_xp [(1, { coins := 0, xp := 18014398509481982, level := 134217727, last_daily := 0 })] 1 1).1 1 =
      134217728 ∧
    xpOf (add_xp [(1, { coins := 0, xp := 18014398509481982, level := 134217727, last_daily := 0 })] 1 1).1 1 =
      18014398509481983 ∧
    ¬ levelOf (add_xp [(1, { coins := 0, xp := 18014398509481982, level := 134217727, last_daily := 0 })] 1 1).1 1 =
        Nat.sqrt (xpOf (add_xp [(1, { coins := 0, xp := 18014398509481982, level := 134217727, last_daily := 0 })] 1 1).1 1) := by
  have hgu : get_user (aupdate (ensure_user
        [(1, { coins := 0, xp := 18014398509481982, level := 134217727, last_daily := 0 })] 1) 1
        (fun r => { r with xp := r.xp + 1 })) 1 =
      some { coins := 0, xp := 18014398509481983, level := 134217727, last_daily := 0 } := by
    decide
  have hadd : add_xp
        [(1, { coins := 0, xp := 18014398509481982, level := 134217727, last_daily := 0 })] 1 1 =
      ([(1, { coins := 0, xp := 18014398509481983, level := 134217728, last_daily := 0 })],
        some 134217728) := by
    simp only [add_xp, hgu, py_level_eval]
    decide
  have hxpre : xpOf [(1, { coins := 0, xp := 18014398509481982, level := 134217727, last_daily := 0 })] 1 =
      18014398509481982 := by decide
  refine ⟨py_level_eval, sqrt_post_eval, ?_, ?_, ?_, ?_, ?_⟩
  · rw [hxpre, sqrt_pre_eval]
    decide
  · rw [hadd]
  · rw [hadd]
    decide
  · rw [hadd]
    decide
  · rw [hadd]
    intro h
    rw [show xpOf [(1, { coins := 0, xp := 18014398509481983, level := 134217728, last_daily := 0 })] 1 =
        18014398509481983 by decide, sqrt_post_eval] at h
    have hlv : levelOf [(1, { coins := 0, xp := 18014398509481983, level := 134217728, last_daily := 0 })] 1 =
        134217728 := by decide
    rw [hlv] at h
    exact absurd h (by decide)

/-- C2 (amended): immediately after every add_xp update the stored level
equals max(previous level, int(xp ** 0.5)) — the float computation, which
can exceed floor(sqrt(xp)) at large xp — the stored level never decreases,
also across any sequence of add_xp calls, and add_xp returns the new level
exactly when the stored level increased and none otherwise. -/
theorem C2_add_xp_level (db : Users) (uid : Nat) (amount : Nat) (amounts : List Nat) :
    levelOf (add_xp db uid amount).1 uid =
      max (levelOf db uid) (py_level (xpOf db uid + amount)) ∧
    levelOf db uid ≤ levelOf (add_xp db uid amount).1 uid ∧
    ((add_xp db uid amount).2 =
      (if levelOf db uid < levelOf (add_xp db uid amount).1 uid
       then some (levelOf (add_xp db uid amount).1 uid) else none)) ∧
    levelOf db uid ≤ levelOf (add_xp_seq db uid amounts) uid := by
  obtain ⟨h1, _, h3, h4⟩ := add_xp_spec db uid amount
  exact ⟨h1, h3, h4, add_xp_seq_mono uid amounts db⟩

/-- Every stored trivia answer is already trimmed and lowercased, so
normalising it is the identity. -/
theorem trivia_answer_fixed (answer : String)
    (h : answer ∈ TRIVIA_QUESTIONS.map Prod.snd) :
    pyLower (pyStrip answer) = answer := by
  simp [TRIVIA_QUESTIONS] at h
  rcases h with h | h | h | h <;> subst h <;> decide

/-- C4: for a session whose stored answer comes from the trivia pool, a
message scores exactly when its trimmed-lowercased content equals the
trimmed-lowercased stored answer; the first correct answer adds exactly
one point to the author, clears the session of the channel, short-circuits
the rest of on_message while command dispatch still runs, and a repeat of
the same text afterwards scores nothing further. -/
theorem C4_trivia (st : TriviaState) (channel author : Nat) (content answer : String)
    (asker : Nat)
    (hpool : answer ∈ TRIVIA_QUESTIONS.map Prod.snd)
    (hactive : alookup st.active channel = some (answer, asker)) :
    ((triviaStep st channel author content).scored = true ↔
        pyLower (pyStrip content) = pyLower (pyStrip answer)) ∧
    (pyLower (pyStrip content) = pyLower (pyStrip answer) →
        scoreOf (triviaStep st channel author content).state.scores author =
            scoreOf st.scores author + 1 ∧
        alookup (triviaStep st channel author content).state.active channel = none ∧
        (triviaStep st channel author content).shortCircuit = true ∧
        (triviaStep st channel author content).processCommands = true ∧
        (triviaStep (triviaStep st channel author content).state channel author
            content).scored = false ∧
        scoreOf (triviaStep (triviaStep st channel author content).state channel author
              content).state.scores author =
          scoreOf (triviaStep st channel author content).state.scores author) := by
  have hfix : pyLower (pyStrip answer) = answer := trivia_answer_fixed answer hpool
  rw [hfix]
  by_cases hmatch : pyLower (pyStrip content) = answer
  · have hres : triviaStep st channel author content =
        { state := { active := adel st.active channel,
                     scores := aset st.scores author (scoreOf st.scores author + 1) },
          scored := true, shortCircuit := true, processCommands := true } := by
      simp only [triviaStep, hactive, if_pos hmatch]
    refine ⟨?_, ?_⟩
    · rw [hres]
      simp [hmatch]
    · intro _
      have hcleared : alookup (triviaStep st channel author content).state.active channel =
          none := by
        rw [hres]
        exact alookup_adel_self _ _
      have hres2 : triviaStep (triviaStep st channel author content).state channel author
          content =
          { state := (triviaStep st channel author content).state, scored := false,
            shortCircuit := false, processCommands := true } := by
        set st2 := (triviaStep st channel author content).state with hgen
        simp only [triviaStep, hcleared]
      refine ⟨?_, hcleared, ?_, ?_, ?_, ?_⟩
      · rw [hres]
        simp [scoreOf, alookup_aset_self]
      · rw [hres]
      · rw [hres]
      · rw [hres2]
      · rw [hres2]
  · have hres : triviaStep st channel author content =
        { state := st, scored := false, shortCircuit := false, processCommands := true } := by
      simp only [triviaStep, hactive, if_neg hmatch]
    refine ⟨?_, ?_⟩
    · rw [hres]
      simp [hmatch]
    · intro hcontra
      exact absurd hcontra hmatch

/-- C4 witness: channel 5 holds the "paris" session; user 9 answers with
"  PARIS ". -/
theorem C4_trivia_witness :
    "paris" ∈ TRIVIA_QUESTIONS.map Prod.snd ∧
    alookup (⟨[(5, ("paris", 9))], []⟩ : TriviaState).active 5 = some ("paris", 9) ∧
    (((triviaStep ⟨[(5, ("paris", 9))], []⟩ 5 9 "  PARIS ").scored = true ↔
        pyLower (pyStrip "  PARIS ") = pyLower (pyStrip "paris")) ∧
      (pyLower (pyStrip "  PARIS ") = pyLower (pyStrip "paris") →
        scoreOf (triviaStep ⟨[(5, ("paris", 9))], []⟩ 5 9 "  PARIS ").state.scores 9 =
            scoreOf ([] : List (Nat × Nat)) 9 + 1 ∧
        alookup (triviaStep ⟨[(5, ("paris", 9))], []⟩ 5 9 "  PARIS ").state.active 5 = none ∧
        (triviaStep ⟨[(5, ("paris", 9))], []⟩ 5 9 "  PARIS ").shortCircuit = true ∧
        (triviaStep ⟨[(5, ("paris", 9))], []⟩ 5 9 "  PARIS ").processCommands = true ∧
        (triviaStep (triviaStep ⟨[(5, ("paris", 9))], []⟩ 5 9 "  PARIS ").state 5 9
            "  PARIS ").scored = false ∧
        scoreOf (triviaStep (triviaStep ⟨[(5, ("paris", 9))], []⟩ 5 9 "  PARIS ").state 5 9
              "  PARIS ").state.scores 9 =
          scoreOf (triviaStep ⟨[(5, ("paris", 9))], []⟩ 5 9 "  PARIS ").state.scores 9)) :=
  ⟨by decide, by decide, C4_trivia ⟨[(5, ("paris", 9))], []⟩ 5 9 "  PARIS " "paris" 9
    (by decide) (by decide)⟩
